import Mathlib

/-!
Verification development for the `tabledata` repository.

The repository ships `tabledata/normalizer.py` (embedded below from the
source) together with its test suite.  The `TableData` value object itself
(`tabledata/_core.py`) is not part of the source tree, so its operations are
modelled from the specification (spec.md sections 3, 4.1, 4.2) and pinned by
the behaviour recorded in `test/test_tabledata.py`; every such definition
carries a doc comment starting with "Modelled from the spec:".
-/

/-- Modelled from the spec: a raw or coerced cell value (missing `_core.py`).
`vnull` models Python `None` / an absent value, `vint` a numeric value,
`vstr` a string value.  The external type–coercion adapter is only required
to be deterministic, total and null-preserving (spec section 6). -/
inductive RawVal where
  | vnull : RawVal
  | vint (n : Int) : RawVal
  | vstr (s : String) : RawVal
deriving DecidableEq

/-- Modelled from the spec: a row of a `TableData` is polymorphic over a
positional sequence of raw values or an associative mapping from header name
to raw value (spec section 3, missing `_core.py`). -/
inductive Row where
  | positional (cells : List RawVal) : Row
  | associative (pairs : List (String × RawVal)) : Row
deriving DecidableEq

/-- Modelled from the spec: the `TableData` value object (missing
`_core.py`): a table name, ordered header list, ordered record list, and the
lazy write-once cache of the coerced value matrix (`value_dp_matrix`), whose
presence is observable through `has_value_dp_matrix`. -/
structure TableData where
  table_name : String
  header_list : List String
  record_list : List Row
  value_dp_cache : Option (List (List RawVal))
deriving DecidableEq

/-- Modelled from the spec: construction normalizes `None` header/record
lists to empty sequences and does not compute the value matrix eagerly
(spec section 4.1). -/
def TableData.make (name : String) (headers : Option (List String))
    (records : Option (List Row)) : TableData :=
  ⟨name, headers.getD [], records.getD [], none⟩

/-- Modelled from the spec: the external type–coercion adapter
(`dataproperty`/`typepy`, spec section 6): deterministic, total, maps
recognized empty/absent forms to null and otherwise keeps the value. -/
def dpConv : RawVal → RawVal
  | .vnull => .vnull
  | .vstr s => if s = "" then .vnull else .vstr s
  | .vint n => .vint n

/-- Modelled from the spec: the raw value a row contributes to column `i`
(spec section 4.1): a positional row is read by index (a short row yields no
value, extra values are dropped by the fixed-width traversal); an
associative row is read by header name, absent keys yielding null. -/
def rowRawValueAt (headers : List String) (r : Row) (i : Nat) : RawVal :=
  match r with
  | .positional cells => cells.getD i .vnull
  | .associative pairs =>
    match headers.get? i with
    | some h => (pairs.lookup h).getD .vnull
    | none => .vnull

/-- Modelled from the spec: the coerced fixed-width value matrix of a table
(spec section 4.1): each row becomes a row of `num_columns` coerced values
aligned to the header list. -/
def computeMatrix (t : TableData) : List (List RawVal) :=
  t.record_list.map (fun r =>
    (List.range t.header_list.length).map (fun i =>
      dpConv (rowRawValueAt t.header_list r i)))

/-- Modelled from the spec: the `value_dp_matrix` lazy property (spec
sections 3 and 5): on first access the matrix is computed and cached; later
accesses return the cached matrix.  The access returns the matrix together
with the table in its post-access state. -/
def value_dp_matrix (t : TableData) : List (List RawVal) × TableData :=
  match t.value_dp_cache with
  | some m => (m, t)
  | none => (computeMatrix t, { t with value_dp_cache := some (computeMatrix t) })

/-- Modelled from the spec: the externally observable flag recording whether
the lazy matrix has been computed (named `has_value_dp_matrix` in
`Test_TableData_value_dp_matrix`). -/
def has_value_dp_matrix (t : TableData) : Bool :=
  t.value_dp_cache.isSome

/-- Modelled from the spec: the body of `as_dict()` (spec section 4.1):
one association list per record, pairing each header with the row's coerced
value and omitting columns whose coerced value is null; as pinned by
`Test_TableData_as_dict` (the `include_none` case), a row left with no
non-null column is omitted from the sequence. -/
def asDictBody (t : TableData) : List (List (String × RawVal)) :=
  (computeMatrix t).filterMap (fun row =>
    let cells := (t.header_list.zip row).filter (fun c => !(c.2 == RawVal.vnull))
    if cells.isEmpty then none else some cells)

/-- Modelled from the spec: `as_dict()` (spec section 4.1): a mapping with
the table name as its single key, whose value is the sparse per-row export. -/
def as_dict (t : TableData) : List (String × List (List (String × RawVal))) :=
  [(t.table_name, asDictBody t)]

/-- Repetition marker of a regex piece: exactly once, `*`, or `+`. -/
inductive RRep where
  | one : RRep
  | star : RRep
  | plus : RRep
deriving DecidableEq

/-- A regex atom: a literal character, a character class given by inclusive
ranges, or the any-character dot. -/
inductive RAtom where
  | lit (c : Char) : RAtom
  | cls (ranges : List (Char × Char)) : RAtom
  | anyc : RAtom
deriving DecidableEq

/-- A regex piece: an atom with its repetition marker. -/
structure RPiece where
  atom : RAtom
  rep : RRep
deriving DecidableEq

/-- Does a regex atom match one character. -/
def atomMatch : RAtom → Char → Bool
  | .lit d, c => c == d
  | .cls ranges, c => ranges.any (fun r => r.1 ≤ c && c ≤ r.2)
  | .anyc, _ => true

/-- Fuelled backtracking matcher: does the piece list match some prefix of
the character list.  Each step either consumes a character or discards a
piece, so fuel `2 * s.length + ps.length + 1` is always sufficient. -/
def matchHereF : Nat → List RPiece → List Char → Bool
  | 0, _, _ => false
  | _ + 1, [], _ => true
  | _ + 1, ⟨_, .one⟩ :: _, [] => false
  | f + 1, ⟨a, .one⟩ :: ps, c :: cs => atomMatch a c && matchHereF f ps cs
  | _ + 1, ⟨_, .plus⟩ :: _, [] => false
  | f + 1, ⟨a, .plus⟩ :: ps, c :: cs =>
    atomMatch a c && matchHereF f (⟨a, .star⟩ :: ps) cs
  | f + 1, ⟨_, .star⟩ :: ps, [] => matchHereF f ps []
  | f + 1, ⟨a, .star⟩ :: ps, c :: cs =>
    matchHereF f ps (c :: cs) || (atomMatch a c && matchHereF f (⟨a, .star⟩ :: ps) cs)

/-- Does the piece list match starting exactly at the head of `s`. -/
def matchHere (ps : List RPiece) (s : List Char) : Bool :=
  matchHereF (2 * s.length + ps.length + 1) ps s

/-- Try a match at every suffix start, as Python `re.search` does. -/
def reSearchAux (re : List RPiece) : List Char → Bool
  | [] => matchHere re []
  | c :: cs => matchHere re (c :: cs) || reSearchAux re cs

/-- Parse the inside of a character class, after the opening bracket:
`a-b` contributes the range `(a, b)`, a lone character `c` the range
`(c, c)`; the closing bracket ends the class. -/
def parseCls : List Char → List (Char × Char) → Option (List (Char × Char) × List Char)
  | [], _ => none
  | ']' :: rest, acc => some (acc.reverse, rest)
  | a :: '-' :: b :: rest, acc => parseCls rest ((a, b) :: acc)
  | c :: rest, acc => parseCls rest ((c, c) :: acc)

/-- Attach a postfix repetition marker to an atom and report the unconsumed
input. -/
def attachRep (a : RAtom) : List Char → RPiece × List Char
  | '*' :: rest => (⟨a, .star⟩, rest)
  | '+' :: rest => (⟨a, .plus⟩, rest)
  | rest => (⟨a, .one⟩, rest)

/-- Fuelled compiler from a pattern string to regex pieces.  One piece is
produced per step and the input shrinks, so fuel `length + 1` suffices. -/
def compileF : Nat → List Char → List RPiece
  | 0, _ => []
  | _ + 1, [] => []
  | f + 1, '[' :: rest =>
    match parseCls rest [] with
    | some (ranges, rest1) =>
      let (p, rest2) := attachRep (.cls ranges) rest1
      p :: compileF f rest2
    | none =>
      let (p, rest2) := attachRep (.lit '[') rest
      p :: compileF f rest2
  | f + 1, '.' :: rest =>
    let (p, rest2) := attachRep .anyc rest
    p :: compileF f rest2
  | f + 1, c :: rest =>
    let (p, rest2) := attachRep (.lit c) rest
    p :: compileF f rest2

/-- Modelled from the spec: Python `re.search(pattern, header)` truthiness
(external `re` module; spec section 4.2: substring search, no full-match
anchoring), for the pattern subset the column filter is exercised with
(literals, character classes, dot, `*`, `+`). -/
def reSearch (pat : String) (s : String) : Bool :=
  reSearchAux (compileF (pat.data.length + 1) pat.data) s.data

/-- Modelled from the spec: the `PatternMatch` combination rule enum for the
column filter (spec section 4.2). -/
inductive PatternMatch where
  | OR : PatternMatch
  | AND : PatternMatch
deriving DecidableEq

/-- Modelled from the spec: is one header selected by `filter_column`
(spec section 4.2, steps 2 and 3): exact mode is membership in the pattern
list; regex mode combines `re.search` results with OR or AND; an invert
match flips the result. -/
def headerSelected (pattern_list : List String) (is_invert_match : Bool)
    (is_re_match : Bool) (pm : PatternMatch) (h : String) : Bool :=
  let base :=
    if is_re_match then
      match pm with
      | .OR => pattern_list.any (fun p => reSearch p h)
      | .AND => pattern_list.all (fun p => reSearch p h)
    else pattern_list.contains h
  if is_invert_match then !base else base

/-- Modelled from the spec: `filter_column` (spec section 4.2, missing
`_core.py`): a null or empty pattern list is a passthrough; otherwise the
matching headers are kept in order and every record is projected onto the
matching column indices as a positional row; if no header matches, the
result has an empty header list and an empty record list. -/
def filter_column (t : TableData) (pattern_list : Option (List String))
    (is_invert_match : Bool) (is_re_match : Bool) (pm : PatternMatch) : TableData :=
  match pattern_list with
  | none => t
  | some [] => t
  | some pats =>
    let keep := t.header_list.enum.filter (fun p =>
      headerSelected pats is_invert_match is_re_match pm p.2)
    if keep.isEmpty then ⟨t.table_name, [], [], none⟩
    else
      ⟨t.table_name, keep.map Prod.snd,
        t.record_list.map (fun r =>
          Row.positional (keep.map (fun p => rowRawValueAt t.header_list r p.1))),
        none⟩

/-- Modelled from the spec: strict equality `==` of two tables.  It compares
the table name, the header list and the row data; as pinned by
`Test_TableData_equals` (a mapping-row table and a positional-row table with
the same coerced values are strictly unequal), the row data are compared in
their raw representation. -/
def tdEq (a b : TableData) : Bool :=
  a.table_name == b.table_name && a.header_list == b.header_list &&
    a.record_list == b.record_list

/-- Modelled from the spec: `equals(other, is_strict)` (spec section 3):
strict mode is `==`; loose mode compares only the coerced value matrices. -/
def equals (a b : TableData) (is_strict : Bool) : Bool :=
  if is_strict then tdEq a b else computeMatrix a == computeMatrix b

/-- Modelled from the spec: `in_tabledata_list(candidates, is_strict)`
(spec section 4.1): true iff some candidate is `equals`-equal to the
instance under the given strictness. -/
def in_tabledata_list (a : TableData) (cands : List TableData)
    (is_strict : Bool) : Bool :=
  cands.any (fun c => equals a c is_strict)

/-- A Python value as seen by the normalizer's name hooks: a raw value or a
whole `TableData` object (the latter is needed because
`AbstractTableDataNormalizer.validate` passes `self._tabledata` itself to
`_validate_table_name`, normalizer.py line 44). -/
inductive PyVal where
  | vnull : PyVal
  | vint (n : Int) : PyVal
  | vstr (s : String) : PyVal
  | vtable (t : TableData) : PyVal
deriving DecidableEq

/-- The error kinds the normalizer pipeline distinguishes:
`InvalidTableNameError`, `InvalidHeaderNameError` (tabledata.error, file not
in the source tree, modelled from the spec as the two name-error kinds) and
the external validator's name-emptiness error `pathvalidate.NullNameError`
(spec section 6 requires it to be a distinguishable kind). -/
inductive NameErr where
  | invalidTableName : NameErr
  | invalidHeaderName : NameErr
  | nullName : NameErr
deriving DecidableEq

/-- The abstract-method set of `AbstractTableDataNormalizer`
(normalizer.py lines 58-126): preprocessing, validation and sanitization
hooks for the table name and for headers.  A concrete subclass of the
Python class is one value of this structure. -/
structure NormalizerPolicy where
  preprocess_table_name : TableData → PyVal
  validate_table_name : PyVal → Except NameErr Unit
  sanitize_table_name : PyVal → PyVal
  preprocess_header : Nat → PyVal → PyVal
  validate_header : PyVal → Except NameErr Unit
  sanitize_header : PyVal → PyVal

/-- Embeds `AbstractTableDataNormalizer.__validate_header_list`
(normalizer.py lines 128-130): validate each header in order; an exception
aborts the loop at the first invalid header. -/
def validateHeaders (p : NormalizerPolicy) : List String → Except NameErr Unit
  | [] => .ok ()
  | h :: hs =>
    match p.validate_header (.vstr h) with
    | .ok _ => validateHeaders p hs
    | .error e => .error e

/-- Embeds `AbstractTableDataNormalizer.validate` (normalizer.py lines
43-45).  The source passes `self._tabledata` — the whole `TableData`
object, not its table name — to `_validate_table_name`, which the embedding
reproduces with `PyVal.vtable`. -/
def validate (p : NormalizerPolicy) (t : TableData) : Except NameErr Unit :=
  match p.validate_table_name (.vtable t) with
  | .ok _ => validateHeaders p t.header_list
  | .error e => .error e

/-- Embeds `AbstractTableDataNormalizer.__sanitize_table_name`
(normalizer.py lines 132-144): preprocess, validate; on
`InvalidTableNameError` sanitize and re-validate, any error of the
re-validation propagating as raised; an initial `pathvalidate.NullNameError`
is remapped to `InvalidTableNameError`; any other initial error propagates.
The Python `except` clauses catch only exceptions of the `try` body, so the
`NullNameError` remapping does not apply to the re-validation. -/
def sanitizeTableName (p : NormalizerPolicy) (t : TableData) : Except NameErr PyVal :=
  match p.validate_table_name (p.preprocess_table_name t) with
  | .ok _ => .ok (p.preprocess_table_name t)
  | .error .invalidTableName =>
    match p.validate_table_name (p.sanitize_table_name (p.preprocess_table_name t)) with
    | .ok _ => .ok (p.sanitize_table_name (p.preprocess_table_name t))
    | .error e => .error e
  | .error .nullName => .error .invalidTableName
  | .error .invalidHeaderName => .error .invalidHeaderName

/-- Embeds one iteration of the loop of
`AbstractTableDataNormalizer._sanitize_header_list` (normalizer.py lines
149-161): preprocess the header with its column index, validate; on
`InvalidHeaderNameError` sanitize and re-validate (re-validation errors
propagating as raised); an initial `pathvalidate.NullNameError` is remapped
to `InvalidHeaderNameError`; any other initial error propagates. -/
def sanitizeOneHeader (p : NormalizerPolicy) (idx : Nat) (h : String) :
    Except NameErr PyVal :=
  match p.validate_header (p.preprocess_header idx (.vstr h)) with
  | .ok _ => .ok (p.preprocess_header idx (.vstr h))
  | .error .invalidHeaderName =>
    match p.validate_header (p.sanitize_header (p.preprocess_header idx (.vstr h))) with
    | .ok _ => .ok (p.sanitize_header (p.preprocess_header idx (.vstr h)))
    | .error e => .error e
  | .error .nullName => .error .invalidHeaderName
  | .error .invalidTableName => .error .invalidTableName

/-- Embeds the loop of `AbstractTableDataNormalizer._sanitize_header_list`
(normalizer.py lines 146-163): the sanitized headers are collected in
order; the first error aborts the loop. -/
def sanitizeHeaderListAux (p : NormalizerPolicy) :
    Nat → List String → Except NameErr (List PyVal)
  | _, [] => .ok []
  | idx, h :: hs =>
    match sanitizeOneHeader p idx h with
    | .error e => .error e
    | .ok nh =>
      match sanitizeHeaderListAux p (idx + 1) hs with
      | .error e => .error e
      | .ok rest => .ok (nh :: rest)

/-- Embeds `AbstractTableDataNormalizer._sanitize_header_list` applied to
the stored table. -/
def sanitizeHeaderList (p : NormalizerPolicy) (t : TableData) :
    Except NameErr (List PyVal) :=
  sanitizeHeaderListAux p 0 t.header_list

/-- Modelled from the spec: `str(value)` as used by
`typepy.String(value).force_convert()` (external library, spec section 6:
`force_convert(raw) -> string`). -/
def pyStr : PyVal → String
  | .vstr s => s
  | .vint n => toString n
  | .vnull => "None"
  | .vtable _ => "TableData"

/-- Embeds `AbstractTableDataNormalizer.sanitize` (normalizer.py lines
47-56): builds a new `TableData` from the sanitized table name, the
sanitized header list and — as the source is written — the stored table's
`value_dp_matrix`, whose access also fills the stored table's lazy cache.
The sanitized name and headers are stored in their string form (the default
policy only ever produces strings).  The result pairs the new table with
the post-access state of the input table. -/
def sanitize (p : NormalizerPolicy) (t : TableData) :
    Except NameErr (TableData × TableData) :=
  match sanitizeTableName p t with
  | .error e => .error e
  | .ok n =>
    match sanitizeHeaderList p t with
    | .error e => .error e
    | .ok hs =>
      .ok (⟨pyStr n, hs.map pyStr,
            ((value_dp_matrix t).1).map Row.positional, none⟩,
           (value_dp_matrix t).2)

/-- Modelled from the spec: the external `typepy.String(value).validate()`
check used by the default policy (spec section 4.3: the default policy
delegates validity to the external validator; a string value is valid, any
other value raises). -/
def typepyStringOk : PyVal → Bool
  | .vstr _ => true
  | _ => false

/-- Embeds the concrete `TableDataNormalizer` (normalizer.py lines
166-190): preprocessing is the identity (the table name hook returns the
stored table name), validation wraps the external string check into
`InvalidTableNameError` / `InvalidHeaderNameError`, and sanitization is
`typepy.String(...).force_convert()`. -/
def TableDataNormalizer : NormalizerPolicy where
  preprocess_table_name := fun t => .vstr t.table_name
  validate_table_name := fun v =>
    if typepyStringOk v then .ok () else .error .invalidTableName
  sanitize_table_name := fun v => .vstr (pyStr v)
  preprocess_header := fun _ h => h
  validate_header := fun v =>
    if typepyStringOk v then .ok () else .error .invalidHeaderName
  sanitize_header := fun v => .vstr (pyStr v)

/-- A table with one associative record: its raw record list differs from
its coerced value matrix. -/
def assocTable : TableData :=
  ⟨"t", ["a"], [Row.associative [("a", RawVal.vint 1)]], none⟩

/-- The table of the spec's `as_dict` example:
`("t", ["a","b"], [[None,2],[None,None],[3,None]])`. -/
def asDictTable : TableData :=
  ⟨"t", ["a", "b"],
    [Row.positional [RawVal.vnull, RawVal.vint 2],
     Row.positional [RawVal.vnull, RawVal.vnull],
     Row.positional [RawVal.vint 3, RawVal.vnull]], none⟩

/-- The table of `Test_TableData_filter_column.test_normal_unmatch`:
headers `["abcde", "test"]`, rows `[[1, 2], [3, 4]]`. -/
def unmatchTable : TableData :=
  ⟨"unmatch_pattern", ["abcde", "test"],
    [Row.positional [RawVal.vint 1, RawVal.vint 2],
     Row.positional [RawVal.vint 3, RawVal.vint 4]], none⟩

/-- The table of `Test_TableData_filter_column.test_normal_pattern_match`
(the `match_and` case). -/
def matchAndTable : TableData :=
  ⟨"match_and", ["test001_AAA", "AAA_test1234", "foo", "AAA_hoge"],
    [Row.positional [RawVal.vint 1, RawVal.vint 2, RawVal.vint 3, RawVal.vint 4],
     Row.positional [RawVal.vint 11, RawVal.vint 12, RawVal.vint 13, RawVal.vint 14]],
    none⟩

/-- The mapping-row table of `Test_TableData_equals`. -/
def equalsLhs : TableData :=
  ⟨"tablename", ["a", "b"],
    [Row.associative [("a", RawVal.vint 1), ("b", RawVal.vint 2)],
     Row.associative [("a", RawVal.vint 11), ("b", RawVal.vint 12)]], none⟩

/-- The positional-row table of `Test_TableData_equals`. -/
def equalsRhs : TableData :=
  ⟨"tablename", ["a", "b"],
    [Row.positional [RawVal.vint 1, RawVal.vint 2],
     Row.positional [RawVal.vint 11, RawVal.vint 12]], none⟩

/-- A table with a valid string table name and a valid header. -/
def validNameTable : TableData :=
  ⟨"valid_name", ["a"], [], none⟩

/-- A one-record positional table used as a sanitize input. -/
def posTable : TableData :=
  ⟨"w", ["a"], [Row.positional [RawVal.vint 5]], none⟩

/-- A small already-valid table for the identity-sanitization witness. -/
def idTable : TableData :=
  ⟨"t0", ["a"], [], none⟩

/-- A concrete normalizer policy (one admissible subclass of
`AbstractTableDataNormalizer`) exercising every branch of the sanitize
pipeline: the names "n" and "hn" fail validation with the emptiness error,
"i", "j" and "hi" fail with the invalid-name errors, and the repaired names
"R" and "hr" fail re-validation with the emptiness error while "j" repairs
to the valid name "ok". -/
def branchPolicy : NormalizerPolicy where
  preprocess_table_name := fun t => .vstr t.table_name
  validate_table_name := fun v =>
    match v with
    | .vstr "n" => .error .nullName
    | .vstr "i" => .error .invalidTableName
    | .vstr "j" => .error .invalidTableName
    | .vstr "R" => .error .nullName
    | _ => .ok ()
  sanitize_table_name := fun v =>
    match v with
    | .vstr "i" => .vstr "R"
    | _ => .vstr "ok"
  preprocess_header := fun _ h => h
  validate_header := fun v =>
    match v with
    | .vstr "hn" => .error .nullName
    | .vstr "hi" => .error .invalidHeaderName
    | .vstr "hr" => .error .nullName
    | _ => .ok ()
  sanitize_header := fun _ => .vstr "hr"

/-- Accessing the lazy matrix changes at most the cache of a table: its
name, header list and record list are untouched. -/
lemma value_dp_matrix_preserves (t : TableData) :
    ((value_dp_matrix t).2).table_name = t.table_name ∧
    ((value_dp_matrix t).2).header_list = t.header_list ∧
    ((value_dp_matrix t).2).record_list = t.record_list := by
  rcases t with ⟨n, hs, rs, c⟩
  cases c <;> simp [value_dp_matrix]

/-- The default policy sanitizes a list of already-string headers to itself. -/
lemma default_sanitizeHeaders (idx : Nat) (hs : List String) :
    sanitizeHeaderListAux TableDataNormalizer idx hs = .ok (hs.map PyVal.vstr) := by
  induction hs generalizing idx with
  | nil => rfl
  | cons h hs ih =>
    have h1 : sanitizeOneHeader TableDataNormalizer idx h = .ok (.vstr h) := rfl
    simp [sanitizeHeaderListAux, h1, ih]

/-- Claim C9: the coerced value matrix is lazy and computed at most once:
a freshly constructed table has `has_value_dp_matrix = false`; after an
access the flag is `true`; and a second access returns exactly the first
access's matrix and state, without recomputation. -/
theorem value_dp_matrix_lazy_once :
    (∀ n hs rs, has_value_dp_matrix (TableData.make n hs rs) = false)
    ∧ (∀ t, has_value_dp_matrix (value_dp_matrix t).2 = true)
    ∧ (∀ t, value_dp_matrix (value_dp_matrix t).2 = value_dp_matrix t) := by
  refine ⟨fun n hs rs => rfl, fun t => ?_, fun t => ?_⟩ <;>
    (rcases t with ⟨n, hs, rs, c⟩;
     cases c <;> simp [value_dp_matrix, has_value_dp_matrix])

/-- Claim C8: normalization never mutates the input table's data: whenever
`sanitize` succeeds, the input table it leaves behind still has its
original table name, header list and record list (only the lazy matrix
cache may have been filled), the result being a freshly constructed
`TableData`. -/
theorem sanitize_preserves_input (p : NormalizerPolicy) (t r s : TableData)
    (h : sanitize p t = .ok (r, s)) :
    s.table_name = t.table_name ∧ s.header_list = t.header_list ∧
      s.record_list = t.record_list := by
  rcases hn : sanitizeTableName p t with e | n
  · simp [sanitize, hn] at h
  · rcases hh : sanitizeHeaderList p t with e | hs
    · simp [sanitize, hn, hh] at h
    · simp only [sanitize, hn, hh, Except.ok.injEq, Prod.mk.injEq] at h
      obtain ⟨-, h2⟩ := h
      rw [← h2]
      exact value_dp_matrix_preserves t

/-- Witness for claim C8 at a concrete table. -/
theorem sanitize_preserves_input_witness :
    sanitize TableDataNormalizer posTable =
      .ok (⟨"w", ["a"], [Row.positional [RawVal.vint 5]], none⟩,
           ⟨"w", ["a"], [Row.positional [RawVal.vint 5]], some [[RawVal.vint 5]]⟩)
    ∧ ((⟨"w", ["a"], [Row.positional [RawVal.vint 5]],
          some [[RawVal.vint 5]]⟩ : TableData).table_name = posTable.table_name
       ∧ (⟨"w", ["a"], [Row.positional [RawVal.vint 5]],
            some [[RawVal.vint 5]]⟩ : TableData).header_list = posTable.header_list
       ∧ (⟨"w", ["a"], [Row.positional [RawVal.vint 5]],
            some [[RawVal.vint 5]]⟩ : TableData).record_list = posTable.record_list) :=
  ⟨rfl,
   sanitize_preserves_input TableDataNormalizer posTable
     ⟨"w", ["a"], [Row.positional [RawVal.vint 5]], none⟩
     ⟨"w", ["a"], [Row.positional [RawVal.vint 5]], some [[RawVal.vint 5]]⟩ rfl⟩

/-- Claim C1, counterexample: on a table whose single record is
associative, `sanitize` returns a table whose record list is the coerced
positional value matrix, which differs from the input's original record
list — refuting "the row data is the original (unconverted, un-coerced)
record values". -/
theorem sanitize_not_original_records :
    sanitize TableDataNormalizer assocTable =
      .ok (⟨"t", ["a"], [Row.positional [RawVal.vint 1]], none⟩,
           ⟨"t", ["a"], [Row.associative [("a", RawVal.vint 1)]],
             some [[RawVal.vint 1]]⟩)
    ∧ [Row.positional [RawVal.vint 1]] ≠ assocTable.record_list :=
  ⟨rfl, by decide⟩

/-- Claim C1, amended: `sanitize` returns a new `TableData` whose table
name is the sanitized table name, whose header list is the sanitized
header list, and whose row data is the input table's `value_dp_matrix` —
the coerced value matrix, materialized as positional rows — not the
original raw record values. -/
theorem sanitize_builds_from_dp_matrix (p : NormalizerPolicy) (t : TableData)
    (n : PyVal) (hs : List PyVal)
    (h1 : sanitizeTableName p t = .ok n)
    (h2 : sanitizeHeaderList p t = .ok hs) :
    sanitize p t =
      .ok (⟨pyStr n, hs.map pyStr,
            ((value_dp_matrix t).1).map Row.positional, none⟩,
           (value_dp_matrix t).2) := by
  simp [sanitize, h1, h2]

/-- Witness for claim C1's amended theorem at a concrete table. -/
theorem sanitize_builds_from_dp_matrix_witness :
    sanitizeTableName TableDataNormalizer assocTable = .ok (.vstr "t")
    ∧ sanitizeHeaderList TableDataNormalizer assocTable = .ok [.vstr "a"]
    ∧ sanitize TableDataNormalizer assocTable =
        .ok (⟨pyStr (.vstr "t"), ([PyVal.vstr "a"]).map pyStr,
              ((value_dp_matrix assocTable).1).map Row.positional, none⟩,
             (value_dp_matrix assocTable).2) :=
  ⟨rfl, rfl,
   sanitize_builds_from_dp_matrix TableDataNormalizer assocTable
     (.vstr "t") [.vstr "a"] rfl rfl⟩

/-- Claim C2: `validate()` passes `self._tabledata` — the whole table
object, not its (preprocessed) table name — to the table-name validator
(normalizer.py line 44), so with the default policy it reports
`InvalidTableNameError` even for a table whose name and headers are all
valid strings. -/
theorem validate_checks_object_not_name :
    validate TableDataNormalizer validNameTable = .error .invalidTableName
    ∧ NormalizerPolicy.validate_table_name TableDataNormalizer
        (.vstr "valid_name") = .ok ()
    ∧ NormalizerPolicy.validate_header TableDataNormalizer (.vstr "a") = .ok () :=
  ⟨rfl, rfl, rfl⟩

/-- Claim C4, counterexample: a `NullNameError` raised by the re-validation
of the repaired table name propagates to the caller raw — it is not
remapped to `InvalidTableNameError` — because the Python `except` clauses
of `__sanitize_table_name` only catch exceptions of the `try` body. -/
theorem revalidation_nullname_escapes_raw :
    sanitizeTableName branchPolicy ⟨"i", [], [], none⟩ = .error .nullName
    ∧ NameErr.nullName ≠ NameErr.invalidTableName :=
  ⟨rfl, by decide⟩

/-- Claim C4, amended: during `sanitize()`, a name failing the initial
validation with `InvalidTableNameError` (resp. `InvalidHeaderNameError`) is
repaired and re-validated, an error escalating only after that repair; a
`NullNameError` surfaced by the *initial* validation is remapped to
`InvalidTableNameError` for the table name and `InvalidHeaderNameError` for
a header; but any error of the *re-validation* of the repaired name — the
raw `NullNameError` included — propagates to the caller as raised. -/
theorem sanitize_nullname_handling (p : NormalizerPolicy) (t : TableData) :
    (p.validate_table_name (p.preprocess_table_name t) = .error .nullName →
      sanitizeTableName p t = .error .invalidTableName)
    ∧ (∀ e, p.validate_table_name (p.preprocess_table_name t) = .error .invalidTableName →
        p.validate_table_name (p.sanitize_table_name (p.preprocess_table_name t)) = .error e →
        sanitizeTableName p t = .error e)
    ∧ (p.validate_table_name (p.preprocess_table_name t) = .error .invalidTableName →
        p.validate_table_name (p.sanitize_table_name (p.preprocess_table_name t)) = .ok () →
        sanitizeTableName p t = .ok (p.sanitize_table_name (p.preprocess_table_name t)))
    ∧ (∀ i h, p.validate_header (p.preprocess_header i (.vstr h)) = .error .nullName →
        sanitizeOneHeader p i h = .error .invalidHeaderName)
    ∧ (∀ i h e, p.validate_header (p.preprocess_header i (.vstr h)) = .error .invalidHeaderName →
        p.validate_header (p.sanitize_header (p.preprocess_header i (.vstr h))) = .error e →
        sanitizeOneHeader p i h = .error e) := by
  refine ⟨fun h1 => ?_, fun e h1 h2 => ?_, fun h1 h2 => ?_,
    fun i h h1 => ?_, fun i h e h1 h2 => ?_⟩
  · simp [sanitizeTableName, h1]
  · simp [sanitizeTableName, h1, h2]
  · simp [sanitizeTableName, h1, h2]
  · simp [sanitizeOneHeader, h1]
  · simp [sanitizeOneHeader, h1, h2]

/-- Witness for claim C4's amended theorem, exercising every branch with a
concrete policy: initial emptiness errors are remapped, a successful repair
is returned, and re-validation errors propagate raw. -/
theorem sanitize_nullname_handling_witness :
    sanitizeTableName branchPolicy ⟨"n", [], [], none⟩ = .error .invalidTableName
    ∧ sanitizeTableName branchPolicy ⟨"i", [], [], none⟩ = .error .nullName
    ∧ sanitizeTableName branchPolicy ⟨"j", [], [], none⟩ = .ok (.vstr "ok")
    ∧ sanitizeOneHeader branchPolicy 0 "hn" = .error .invalidHeaderName
    ∧ sanitizeOneHeader branchPolicy 0 "hi" = .error .nullName :=
  ⟨(sanitize_nullname_handling branchPolicy ⟨"n", [], [], none⟩).1 rfl,
   (sanitize_nullname_handling branchPolicy ⟨"i", [], [], none⟩).2.1 .nullName rfl rfl,
   (sanitize_nullname_handling branchPolicy ⟨"j", [], [], none⟩).2.2.1 rfl rfl,
   (sanitize_nullname_handling branchPolicy ⟨"x", [], [], none⟩).2.2.2.1 0 "hn" rfl,
   (sanitize_nullname_handling branchPolicy ⟨"x", [], [], none⟩).2.2.2.2 0 "hi" .nullName rfl rfl⟩

/-- Claim C3, counterexample: on the spec's example table
`("t", ["a","b"], [[None,2],[None,None],[3,None]])`, `as_dict()` does not
keep the all-null row as an empty mapping: the claimed value with the empty
mapping in the middle is not the result. -/
theorem as_dict_not_empty_mapping :
    as_dict asDictTable ≠
      [("t", [[("b", RawVal.vint 2)], [], [("a", RawVal.vint 3)]])] := by
  decide

/-- Claim C3, amended: `as_dict()` returns a mapping with the table name as
single key; every exported row mapping is non-empty and omits exactly the
null-valued columns; a row whose columns are all null is omitted from the
row sequence entirely, so the example yields `{"t": [{"b":2}, {"a":3}]}`. -/
theorem as_dict_sparse_export :
    (∀ t, (as_dict t).map Prod.fst = [t.table_name])
    ∧ (∀ t, (asDictBody t).all
        (fun r => !r.isEmpty && r.all (fun c => !(c.2 == RawVal.vnull))) = true)
    ∧ as_dict asDictTable = [("t", [[("b", RawVal.vint 2)], [("a", RawVal.vint 3)]])] := by
  refine ⟨fun t => rfl, fun t => ?_, by decide⟩
  rw [List.all_eq_true]
  intro r hr
  simp only [asDictBody, List.mem_filterMap] at hr
  obtain ⟨row, -, hf⟩ := hr
  split at hf
  · exact absurd hf (by simp)
  · next hemp =>
    injection hf with hf
    rw [← hf, Bool.and_eq_true]
    refine ⟨?_, ?_⟩
    · cases hb : ((t.header_list.zip row).filter
        (fun c => !(c.2 == RawVal.vnull))).isEmpty
      · rfl
      · exact absurd hb hemp
    · rw [List.all_eq_true]
      intro c hc
      exact (List.mem_filter.mp hc).2

/-- Claim C5: a null or empty pattern list makes `filter_column` a
passthrough returning the original table, while a non-empty pattern list
matching no header yields a table with the same name but empty header list
and empty record list; the two outcomes are distinct. -/
theorem filter_column_empty_vs_unmatched :
    (∀ t inv re pm, filter_column t none inv re pm = t)
    ∧ (∀ t inv re pm, filter_column t (some []) inv re pm = t)
    ∧ filter_column unmatchTable (some ["abc"]) false false PatternMatch.OR =
        ⟨"unmatch_pattern", [], [], none⟩
    ∧ filter_column unmatchTable none false false PatternMatch.OR ≠
        filter_column unmatchTable (some ["abc"]) false false PatternMatch.OR :=
  ⟨fun t inv re pm => rfl, fun t inv re pm => rfl, by decide, by decide⟩

/-- Claim C6: with `is_re_match` and `pattern_match=AND`, a header is
selected iff it matches every pattern as a regex search; on the
`match_and` example, exactly `["test001_AAA", "AAA_test1234"]` are
selected, in order, with the matching columns projected from each row. -/
theorem filter_column_and_regex :
    (∀ pats h, headerSelected pats false true PatternMatch.AND h =
        pats.all (fun p => reSearch p h))
    ∧ filter_column matchAndTable (some ["[0-9]+", "AAA"]) false true
        PatternMatch.AND =
      ⟨"match_and", ["test001_AAA", "AAA_test1234"],
        [Row.positional [RawVal.vint 1, RawVal.vint 2],
         Row.positional [RawVal.vint 11, RawVal.vint 12]], none⟩ :=
  ⟨fun pats h => rfl, by decide⟩

/-- Claim C7: `equals` in strict mode coincides with `==`; in loose mode it
compares only the coerced value matrices, so the mapping-row table and the
positional-row table with the same coerced values are loosely equal but not
strictly equal; `in_tabledata_list` is true iff some candidate is
`equals`-equal under the given strictness. -/
theorem equals_strict_loose :
    (∀ a b, equals a b true = tdEq a b)
    ∧ equals equalsLhs equalsRhs false = true
    ∧ equals equalsLhs equalsRhs true = false
    ∧ tdEq equalsLhs equalsRhs = false
    ∧ (∀ a cands s,
        in_tabledata_list a cands s = true ↔ ∃ c ∈ cands, equals a c s = true) :=
  ⟨fun a b => rfl, by decide, by decide, by decide,
   fun a cands s => by simp [in_tabledata_list]⟩

/-- Claim C10: for the default `TableDataNormalizer` policy, preprocessing
is the identity, and whenever the (preprocessed) table name and every
header pass validation, the sanitized table name and sanitized header list
are exactly the original names, unchanged. -/
theorem default_sanitize_identity_on_valid (t : TableData)
    (_h1 : NormalizerPolicy.validate_table_name TableDataNormalizer
        (NormalizerPolicy.preprocess_table_name TableDataNormalizer t) = .ok ())
    (_h2 : ∀ h ∈ t.header_list,
        NormalizerPolicy.validate_header TableDataNormalizer (.vstr h) = .ok ()) :
    NormalizerPolicy.preprocess_table_name TableDataNormalizer t = .vstr t.table_name
    ∧ (∀ i v, NormalizerPolicy.preprocess_header TableDataNormalizer i v = v)
    ∧ sanitizeTableName TableDataNormalizer t = .ok (.vstr t.table_name)
    ∧ sanitizeHeaderList TableDataNormalizer t = .ok (t.header_list.map PyVal.vstr) :=
  ⟨rfl, fun _ _ => rfl, rfl, default_sanitizeHeaders 0 t.header_list⟩

/-- Witness for claim C10 at a concrete already-valid table. -/
theorem default_sanitize_identity_on_valid_witness :
    (NormalizerPolicy.validate_table_name TableDataNormalizer
        (NormalizerPolicy.preprocess_table_name TableDataNormalizer idTable) = .ok ())
    ∧ (sanitizeTableName TableDataNormalizer idTable = .ok (.vstr "t0")
       ∧ sanitizeHeaderList TableDataNormalizer idTable = .ok [.vstr "a"]) :=
  ⟨rfl, (default_sanitize_identity_on_valid idTable rfl (fun _ _ => rfl)).2.2⟩
